import Mathlib

/-!
Verification development for the Hekabrain watchdog supervisor.

The definitions below are a shallow embedding of the TypeScript sources:
the `Watchdog` namespace embeds `WatchdogManager` (watchdog-manager.ts)
and the `LogRing` namespace embeds `LogReader` (log-reader.ts).

Modelling conventions:
- `Date.now()` is passed explicitly as an `Int` argument `now` to every
  operation that reads the clock; a synchronous handler sees one instant.
- Node timers are booleans (`setInterval` active or not); the one-shot
  backoff timer stores the scheduled delay (`restartTimer : Option Nat`).
- Emitted events are accumulated in an `events` trace list.  The trace
  also records two instrumentation markers that correspond to side
  effects rather than emissions: `spawned` marks a `spawn()` call and
  `scheduledRestart d` marks arming `setTimeout(..., d)`.
- `clock` and `liveChild` are instrumentation fields: `clock` records the
  time of the last clock-reading operation, `liveChild` records that a
  spawned child has not yet delivered its exit event.  No translated
  branch reads them.
- Disk persistence (saveConfig/saveCrashLog) and console logging have no
  effect on the supervisor state and are not modelled.
-/

namespace Watchdog

/- ### Shared types (src/shared/types.ts) -/

inductive StatusType where
  | idle | running | crashed | restarting | stopped | max_restarts
deriving DecidableEq

inductive LaunchMode where
  | dev | production
deriving DecidableEq

structure Config where
  targetExePath : String
  targetDevPath : String
  mode : LaunchMode
  autoRestart : Bool
  maxRestarts : Nat
  restartWindowMs : Nat
  healthCheckPort : Nat
  healthCheckIntervalMs : Nat
deriving DecidableEq

structure CrashEntry where
  timestamp : Int
  exitCode : Option Int
  signal : Option String
  uptimeMs : Int
  stderr : String
deriving DecidableEq

structure StatusInfo where
  status : StatusType
  mode : LaunchMode
  exePath : String
  pid : Option Nat
  uptimeMs : Int
  totalCrashes : Nat
  recentCrashes : Nat
  backoffMs : Nat
  lastHealthCheck : Option Int
  healthCheckOk : Bool
  memory : Option Nat
  cpu : Option Nat
deriving DecidableEq

/-- DEFAULT_CONFIG from watchdog-manager.ts. -/
def DEFAULT_CONFIG : Config :=
  { targetExePath := ""
    targetDevPath := ""
    mode := .dev
    autoRestart := true
    maxRestarts := 5
    restartWindowMs := 5 * 60 * 1000
    healthCheckPort := 3001
    healthCheckIntervalMs := 10000 }

/-- Trace events: the four emissions forwarded to the renderer, the
stdout/stderr stream emissions, plus the two instrumentation markers. -/
inductive Event where
  | statusChanged (info : StatusInfo)
  | crash (entry : CrashEntry)
  | maxRestartsEvt
  | errorMsg (msg : String)
  | stdoutData (text : String)
  | stderrData (text : String)
  | spawned (mode : LaunchMode)
  | scheduledRestart (delayMs : Nat)
deriving DecidableEq

/-- The mutable fields of `WatchdogManager`, plus instrumentation
(`liveChild`, `events`, `clock`). -/
structure MState where
  config : Config
  childProcess : Bool
  status : StatusType
  pid : Option Nat
  startTime : Int
  crashLog : List CrashEntry
  recentCrashTimestamps : List Int
  backoffMs : Nat
  restartTimer : Option Nat
  healthCheckTimer : Bool
  lastHealthCheck : Option Int
  healthCheckOk : Bool
  stderrBuffer : String
  memoryUsage : Option Nat
  cpuUsage : Option Nat
  resourceTimer : Bool
  liveChild : Bool
  events : List Event
  clock : Int
deriving DecidableEq

/-- Field initializers of `WatchdogManager`. -/
def initState : MState :=
  { config := DEFAULT_CONFIG
    childProcess := false
    status := .idle
    pid := none
    startTime := 0
    crashLog := []
    recentCrashTimestamps := []
    backoffMs := 1000
    restartTimer := none
    healthCheckTimer := false
    lastHealthCheck := none
    healthCheckOk := false
    stderrBuffer := ""
    memoryUsage := none
    cpuUsage := none
    resourceTimer := false
    liveChild := false
    events := []
    clock := 0 }

def emit (e : Event) (s : MState) : MState :=
  { s with events := s.events ++ [e] }

/-- `getStatus()`. -/
def getStatus (now : Int) (s : MState) : StatusInfo :=
  { status := s.status
    mode := s.config.mode
    exePath := if s.config.mode = .production then s.config.targetExePath else s.config.targetDevPath
    pid := s.pid
    uptimeMs := if 0 < s.startTime then now - s.startTime else 0
    totalCrashes := s.crashLog.length
    recentCrashes := s.recentCrashTimestamps.length
    backoffMs := s.backoffMs
    lastHealthCheck := s.lastHealthCheck
    healthCheckOk := s.healthCheckOk
    memory := s.memoryUsage
    cpu := s.cpuUsage }

/-- `setStatus(status)`: update the field, emit `status-changed` with a
fresh `getStatus()` snapshot. -/
def setStatus (now : Int) (st : StatusType) (s : MState) : MState :=
  let s1 := { s with status := st }
  emit (.statusChanged (getStatus now s1)) s1

/-- `getCrashLog()`. -/
def getCrashLog (s : MState) : List CrashEntry := s.crashLog

/-- `clearCrashLog()`. -/
def clearCrashLog (s : MState) : MState :=
  { s with crashLog := [], recentCrashTimestamps := [] }

/-- A `Partial<WatchdogConfig>` patch. -/
structure ConfigPatch where
  targetExePath : Option String
  targetDevPath : Option String
  mode : Option LaunchMode
  autoRestart : Option Bool
  maxRestarts : Option Nat
  restartWindowMs : Option Nat
  healthCheckPort : Option Nat
  healthCheckIntervalMs : Option Nat
deriving DecidableEq

/-- The empty patch. -/
def emptyPatch : ConfigPatch :=
  { targetExePath := none, targetDevPath := none, mode := none, autoRestart := none
    maxRestarts := none, restartWindowMs := none, healthCheckPort := none
    healthCheckIntervalMs := none }

/-- Object-spread merge `{ ...config, ...updates }`. -/
def applyPatch (p : ConfigPatch) (c : Config) : Config :=
  { targetExePath := p.targetExePath.getD c.targetExePath
    targetDevPath := p.targetDevPath.getD c.targetDevPath
    mode := p.mode.getD c.mode
    autoRestart := p.autoRestart.getD c.autoRestart
    maxRestarts := p.maxRestarts.getD c.maxRestarts
    restartWindowMs := p.restartWindowMs.getD c.restartWindowMs
    healthCheckPort := p.healthCheckPort.getD c.healthCheckPort
    healthCheckIntervalMs := p.healthCheckIntervalMs.getD c.healthCheckIntervalMs }

/-- `updateConfig(updates)` (the disk write is not modelled). -/
def updateConfig (p : ConfigPatch) (s : MState) : MState :=
  { s with config := applyPatch p s.config }

/-- `startHealthCheck()`: clear any previous interval, arm a new one. -/
def startHealthCheck (s : MState) : MState :=
  { s with healthCheckTimer := true }

/-- `stopHealthCheck()`. -/
def stopHealthCheck (s : MState) : MState :=
  { s with healthCheckTimer := false }

/-- `startResourceMonitor()`: `stopResourceMonitor()` (which nulls the
samples) followed by arming the interval. -/
def startResourceMonitor (s : MState) : MState :=
  { s with resourceTimer := true, memoryUsage := none, cpuUsage := none }

/-- `stopResourceMonitor()`. -/
def stopResourceMonitor (s : MState) : MState :=
  { s with resourceTimer := false, memoryUsage := none, cpuUsage := none }

/-- JavaScript `str.slice(-n)`: the last `n` characters (the whole string
when it is shorter). -/
def strTakeRight (n : Nat) (str : String) : String :=
  ⟨str.data.rtake n⟩

/-- `spawn(...)` followed by `attachProcessListeners()`: the handle is
set, listeners attached, and `pid` recorded from the environment-provided
`newPid` (`childProcess.pid ?? null`). -/
def spawnChild (mode : LaunchMode) (newPid : Option Nat) (s : MState) : MState :=
  let s1 := { s with childProcess := true, liveChild := true }
  let s2 := emit (.spawned mode) s1
  { s2 with pid := newPid }

/-- `startDevMode()`. -/
def startDevMode (now : Int) (newPid : Option Nat) (s : MState) : MState :=
  if s.config.targetDevPath = "" then
    setStatus now .stopped (emit (.errorMsg "No dev path configured") s)
  else
    spawnChild .dev newPid s

/-- `startProductionMode()`. -/
def startProductionMode (now : Int) (newPid : Option Nat) (s : MState) : MState :=
  if s.config.targetExePath = "" then
    setStatus now .stopped (emit (.errorMsg "No exe path configured") s)
  else
    spawnChild .production newPid s

/-- `start(mode?)`. -/
def start (now : Int) (modeArg : Option LaunchMode) (newPid : Option Nat) (s : MState) : MState :=
  if s.status = .running then s
  else
    let s0 := { s with clock := now }
    let s1 : MState := match modeArg with
      | some m => { s0 with config := { s0.config with mode := m } }
      | none => s0
    let s2 : MState := setStatus now .running s1
    let s3 : MState := { s2 with startTime := now, stderrBuffer := "" }
    let s4 : MState := if s3.config.mode = LaunchMode.dev then startDevMode now newPid s3
              else startProductionMode now newPid s3
    startResourceMonitor (startHealthCheck s4)

/-- The `childProcess.on(error)` handler: only re-emits the message on
the stderr stream; no state transition. -/
def processError (msg : String) (s : MState) : MState :=
  emit (.stderrData ("Process error: " ++ msg)) s

/-- The `childProcess.stdout.on(data)` handler. -/
def onStdoutData (text : String) (s : MState) : MState :=
  emit (.stdoutData text) s

/-- The `childProcess.stderr.on(data)` handler: append to the
accumulator, cap it at 10 KiB tail-preserving, re-emit. -/
def onStderrData (text : String) (s : MState) : MState :=
  let buf := s.stderrBuffer ++ text
  let buf2 := if 10240 < buf.length then strTakeRight 10240 buf else buf
  emit (.stderrData text) { s with stderrBuffer := buf2 }

/-- `onProcessExit(code, signal)`. -/
def onProcessExit (now : Int) (code : Option Int) (signal : Option String) (s : MState) : MState :=
  let s0 := { s with clock := now, liveChild := false }
  let s1 := stopResourceMonitor (stopHealthCheck s0)
  let s2 := { s1 with pid := none }
  let uptimeMs : Int := if 0 < s2.startTime then now - s2.startTime else 0
  if code = some 0 ∨ s2.status = .stopped then
    setStatus now .stopped s2
  else
    let crash : CrashEntry :=
      { timestamp := now, exitCode := code, signal := signal, uptimeMs := uptimeMs
        stderr := strTakeRight 2048 s2.stderrBuffer }
    let s3 := { s2 with crashLog := s2.crashLog ++ [crash] }
    let s4 := { s3 with recentCrashTimestamps := s3.recentCrashTimestamps ++ [now] }
    let windowStart : Int := now - (s4.config.restartWindowMs : Int)
    let s5 := { s4 with recentCrashTimestamps :=
                  s4.recentCrashTimestamps.filter (fun t => windowStart < t) }
    let s6 := setStatus now .crashed (emit (.crash crash) s5)
    if s6.config.autoRestart = false then s6
    else if s6.config.maxRestarts ≤ s6.recentCrashTimestamps.length then
      emit .maxRestartsEvt (setStatus now .max_restarts s6)
    else
      let s7 := if 60000 < uptimeMs then { s6 with backoffMs := 1000 } else s6
      let s8 := setStatus now .restarting s7
      let s9 := emit (.scheduledRestart s8.backoffMs) { s8 with restartTimer := some s8.backoffMs }
      { s9 with backoffMs := min (s9.backoffMs * 2) 30000 }

/-- `stop()`: set `stopped` first, cancel the backoff timer, stop the
probes, then kill the child.  `killProcess()` nulls the handle and
resolves on the exit event, so when a live child exists its exit handler
(which then takes the orderly-shutdown branch) has run by the time
`stop()` returns. -/
def stop (now : Int) (s : MState) : MState :=
  let s0 := { s with clock := now }
  let s1 := setStatus now .stopped s0
  let s2 := { s1 with restartTimer := none }
  let s3 := stopResourceMonitor (stopHealthCheck s2)
  if s3.childProcess then
    let s4 := { s3 with childProcess := false }
    if s4.liveChild then onProcessExit now none (some "SIGTERM") s4 else s4
  else s3

/-- `restart()`: `stop()`, reset backoff and the crash window, `start()`. -/
def restart (now : Int) (newPid : Option Nat) (s : MState) : MState :=
  let s1 := stop now s
  let s2 := { s1 with backoffMs := 1000, recentCrashTimestamps := [] }
  start now none newPid s2

/-- `buildAndRun()`: guard on the dev path, `stop()`, run the build
(stream emissions elided), then on exit code 0 `start(production)` at
the build-completion time, else emit the failure line. -/
def buildAndRun (now nowDone : Int) (buildCode : Option Int) (newPid : Option Nat)
    (s : MState) : MState :=
  if s.config.targetDevPath = "" then emit (.errorMsg "No dev path configured") s
  else
    let s1 := stop now s
    let s2 := emit (.stdoutData "=== Building project... ===\n") s1
    if buildCode = some 0 then
      start nowDone (some .production) newPid
        (emit (.stdoutData "=== Build complete! Starting... ===\n") s2)
    else
      emit (.stderrData "Build failed\n") s2

/-- The backoff `setTimeout` callback: disarm the timer, `start()`. -/
def backoffFire (now : Int) (newPid : Option Nat) (s : MState) : MState :=
  start now none newPid { s with restartTimer := none }

/-- One firing of the health-check interval: the request outcome `ok` is
environment-provided; both result fields are updated either way. -/
def healthTick (now : Int) (ok : Bool) (s : MState) : MState :=
  { s with clock := now, healthCheckOk := ok, lastHealthCheck := some now }

/-- One firing of the resource-sampler interval: returns early when no
pid; otherwise stores the environment-provided sample. -/
def resourceTick (mem : Option Nat) (s : MState) : MState :=
  if s.pid = none then s else { s with memoryUsage := mem }

/- ### Step relation and reachability.

Each constructor is one event-loop turn: a public call, a timer firing
(guarded by the timer being armed), or a child-stream/exit callback
(guarded by a live child).  Time is positive and non-decreasing. -/

inductive Step : MState → MState → Prop where
  | startStep (s : MState) (now : Int) (modeArg : Option LaunchMode) (newPid : Option Nat)
      (h1 : 0 < now) (h2 : s.clock ≤ now) : Step s (start now modeArg newPid s)
  | stopStep (s : MState) (now : Int)
      (h1 : 0 < now) (h2 : s.clock ≤ now) : Step s (stop now s)
  | restartStep (s : MState) (now : Int) (newPid : Option Nat)
      (h1 : 0 < now) (h2 : s.clock ≤ now) : Step s (restart now newPid s)
  | exitStep (s : MState) (now : Int) (code : Option Int) (signal : Option String)
      (h1 : 0 < now) (h2 : s.clock ≤ now) (h3 : s.liveChild = true) :
      Step s (onProcessExit now code signal s)
  | fireStep (s : MState) (now : Int) (newPid : Option Nat)
      (h1 : 0 < now) (h2 : s.clock ≤ now) (h3 : s.restartTimer.isSome) :
      Step s (backoffFire now newPid s)
  | buildStep (s : MState) (now nowDone : Int) (buildCode : Option Int) (newPid : Option Nat)
      (h1 : 0 < now) (h2 : s.clock ≤ now) (h3 : now ≤ nowDone) :
      Step s (buildAndRun now nowDone buildCode newPid s)
  | healthStep (s : MState) (now : Int) (ok : Bool)
      (h1 : 0 < now) (h2 : s.clock ≤ now) (h3 : s.healthCheckTimer = true) :
      Step s (healthTick now ok s)
  | resourceStep (s : MState) (mem : Option Nat)
      (h3 : s.resourceTimer = true) : Step s (resourceTick mem s)
  | errorStep (s : MState) (msg : String) : Step s (processError msg s)
  | stdoutStep (s : MState) (text : String)
      (h3 : s.liveChild = true) : Step s (onStdoutData text s)
  | stderrStep (s : MState) (text : String)
      (h3 : s.liveChild = true) : Step s (onStderrData text s)
  | updateConfigStep (s : MState) (p : ConfigPatch) : Step s (updateConfig p s)
  | clearCrashLogStep (s : MState) : Step s (clearCrashLog s)

inductive Reachable : MState → Prop where
  | init : Reachable initState
  | step {s s2 : MState} : Reachable s → Step s s2 → Reachable s2

/- ### Trace observers used by the claims. -/

def isSpawnEvent : Event → Bool
  | .spawned _ => true
  | _ => false

def isCrashEvent : Event → Bool
  | .crash _ => true
  | _ => false

def isMaxRestartsEvent : Event → Bool
  | .maxRestartsEvt => true
  | _ => false

def scheduledDelayOf : Event → Option Nat
  | .scheduledRestart d => some d
  | _ => none

/-- The backoff delays armed so far, in order. -/
def scheduledDelays (s : MState) : List Nat :=
  s.events.filterMap scheduledDelayOf

/-- The backoff ladder named by the spec. -/
def backoffLadder : List Nat := [1000, 2000, 4000, 8000, 16000, 30000]

/-- The crash timestamps inside the rolling window as of `now` (what the
spec says `recentCrashes` should report). -/
def recentWithinWindow (now : Int) (s : MState) : Nat :=
  (s.recentCrashTimestamps.filter
    (fun t => now - (s.config.restartWindowMs : Int) < t)).length

/- ### Concrete executions used to settle the scenario claims. -/

/-- Configure a dev path so that `start()` spawns; every other field
keeps its default (`maxRestarts = 5`, `restartWindowMs = 300000`,
`autoRestart = true`). -/
def devPatch : ConfigPatch := { emptyPatch with targetDevPath := some "app" }

/- The five-fast-crashes run: the target exits with code 1 five hundred
milliseconds after every spawn, and each backoff timer fires exactly at
its scheduled delay. -/

def c1s1 : MState := updateConfig devPatch initState
def c1s2 : MState := start 1000 none (some 100) c1s1
def c1s3 : MState := onProcessExit 1500 (some 1) none c1s2
def c1s4 : MState := backoffFire 2500 (some 101) c1s3
def c1s5 : MState := onProcessExit 3000 (some 1) none c1s4
def c1s6 : MState := backoffFire 5000 (some 102) c1s5
def c1s7 : MState := onProcessExit 5500 (some 1) none c1s6
def c1s8 : MState := backoffFire 9500 (some 103) c1s7
def c1s9 : MState := onProcessExit 10000 (some 1) none c1s8
def c1s10 : MState := backoffFire 18000 (some 104) c1s9
def c1final : MState := onProcessExit 18500 (some 1) none c1s10

/- A run that is started at time 100 and stopped at time 200. -/

def c2run : MState := start 100 none (some 7) (updateConfig devPatch initState)
def c2stopped : MState := stop 200 c2run

/- A run that crashes once at time 600 and is then left alone. -/

def c3crashed : MState := onProcessExit 600 (some 1) none c2run

/- A `start()` issued with the default (empty) dev path. -/

end Watchdog

namespace LogRing

/- ### LogReader (src/main/log-reader.ts) -/

inductive LogLevel where
  | info | warning | error | debug
deriving DecidableEq

inductive Category where
  | console | network | renderer | security | system | ipc | performance
deriving DecidableEq

inductive LogSource where
  | stdout | stderr | file
deriving DecidableEq

/-- The source tag accepted by `addDirectLog`. -/
inductive DirectSource where
  | stdout | stderr
deriving DecidableEq

def DirectSource.toLogSource : DirectSource → LogSource
  | .stdout => .stdout
  | .stderr => .stderr

structure LogEntry where
  timestamp : Int
  level : LogLevel
  category : Category
  message : String
  source : LogSource
deriving DecidableEq

/-- The ring plus instrumentation: `emitted` records every entry passed
to `emit(log, entry)`, in order. -/
structure LRState where
  logs : List LogEntry
  emitted : List LogEntry
deriving DecidableEq

def lrInit : LRState := { logs := [], emitted := [] }

/-- `maxLogs`. -/
def maxLogs : Nat := 5000

/-- Does `needle` occur as a contiguous run inside `hay`? -/
def hasSubList (needle : List Char) : List Char → Bool
  | [] => needle.isEmpty
  | c :: rest => needle.isPrefixOf (c :: rest) || hasSubList needle rest

/-- JavaScript `hay.includes(needle)`. -/
def containsSub (hay needle : String) : Bool :=
  hasSubList needle.data hay.data

/-- JavaScript `str.split(newline)` on the character list: splitting on
the newline character, keeping empty pieces. -/
def splitOnNl : List Char → List (List Char)
  | [] => [[]]
  | c :: rest =>
    match splitOnNl rest with
    | [] => [[]]
    | cur :: others =>
      if c = '\n' then [] :: cur :: others else (c :: cur) :: others

/-- JavaScript `str.trim()`: strip whitespace from both ends. -/
def jsTrim (s : String) : String :=
  ⟨((s.data.dropWhile Char.isWhitespace).reverse.dropWhile Char.isWhitespace).reverse⟩

/-- JavaScript `str.toLowerCase()`. -/
def toLowerStr (s : String) : String :=
  ⟨s.data.map Char.toLower⟩

/-- `content.split(newline).filter(line => line.trim())`. -/
def nonBlankLines (content : String) : List String :=
  ((splitOnNl content.data).map (fun l => (⟨l⟩ : String))).filter
    (fun line => jsTrim line ≠ "")

/-- `parseLine(line, defaultCategory)` (file-tailer classification). -/
def parseLine (now : Int) (line : String) (defaultCategory : Category) : LogEntry :=
  let lower := toLowerStr line
  let level : LogLevel :=
    if containsSub lower "[error]" || containsSub lower "error:"
        || containsSub lower "uncaught" || containsSub lower "exception" then .error
    else if containsSub lower "[warn" || containsSub lower "warning" then .warning
    else if containsSub lower "[debug]" then .debug
    else .info
  let category : Category :=
    if containsSub lower "[network]" || containsSub lower "fetch"
        || containsSub lower "http" then .network
    else if containsSub lower "[renderer]" || containsSub lower "[browser]" then .renderer
    else if containsSub lower "[security]" || containsSub lower "cors"
        || containsSub lower "csp" then .security
    else if containsSub lower "[ipc]" then .ipc
    else if containsSub lower "[performance]" || containsSub lower "memory"
        || containsSub lower "cpu" then .performance
    else defaultCategory
  { timestamp := now, level := level, category := category, message := line, source := .file }

/-- The entry `addDirectLog` builds for one line: category is always
`console`; level defaults by source, and only for `stdout` the contains
error/warn/debug overrides apply. -/
def directEntry (now : Int) (source : DirectSource) (line : String) : LogEntry :=
  let base : LogEntry :=
    { timestamp := now
      level := if source = .stderr then .error else .info
      category := .console
      message := line
      source := source.toLogSource }
  if source = .stdout then
    let lower := toLowerStr line
    if containsSub lower "error" then { base with level := .error }
    else if containsSub lower "warn" then { base with level := .warning }
    else if containsSub lower "debug" then { base with level := .debug }
    else base
  else base

/-- `this.logs.push(entry); this.emit(log, entry)`. -/
def pushEntry (e : LogEntry) (st : LRState) : LRState :=
  { st with logs := st.logs ++ [e], emitted := st.emitted ++ [e] }

/-- The trim applied after a batch: `if (logs.length > maxLogs) logs = logs.slice(-maxLogs)`. -/
def trimLogs (l : List LogEntry) : List LogEntry :=
  if maxLogs < l.length then l.rtake maxLogs else l

/-- `addDirectLog(message, source)`. -/
def addDirectLog (now : Int) (message : String) (source : DirectSource) (st : LRState) : LRState :=
  let st1 := (nonBlankLines message).foldl
    (fun acc line => pushEntry (directEntry now source line) acc) st
  { st1 with logs := trimLogs st1.logs }

/-- `processNewContent(content, category)` (tailer read path). -/
def processNewContent (now : Int) (content : String) (category : Category) (st : LRState) : LRState :=
  let st1 := (nonBlankLines content).foldl
    (fun acc line => pushEntry (parseLine now line category) acc) st
  { st1 with logs := trimLogs st1.logs }

/-- The category strings as they appear on the wire. -/
def categoryName : Category → String
  | .console => "console"
  | .network => "network"
  | .renderer => "renderer"
  | .security => "security"
  | .system => "system"
  | .ipc => "ipc"
  | .performance => "performance"

/-- `getLogs(limit?, category?)`.  Both JavaScript parameters are tested
for truthiness: `undefined`, `0` and the empty string are falsy. -/
def getLogs (limit : Option Nat) (category : Option String) (st : LRState) : List LogEntry :=
  let filtered : List LogEntry := match category with
    | some c => if c = "" then st.logs
                else st.logs.filter (fun l => categoryName l.category = c)
    | none => st.logs
  match limit with
  | some n => if n = 0 then filtered else filtered.rtake n
  | none => filtered

/-- `clearLogs()`. -/
def clearLogs (st : LRState) : LRState :=
  { st with logs := [] }

/- ### Push-operation sequences (for the ring-bound claim). -/

inductive PushOp where
  | direct (now : Int) (msg : String) (src : DirectSource)
  | fileChunk (now : Int) (content : String) (cat : Category)
deriving DecidableEq

/-- The classified entries one push contributes, in order. -/
def pushLines : PushOp → List LogEntry
  | .direct now msg src => (nonBlankLines msg).map (directEntry now src)
  | .fileChunk now content cat => (nonBlankLines content).map (fun line => parseLine now line cat)

def applyPush (st : LRState) (op : PushOp) : LRState :=
  match op with
  | .direct now msg src => addDirectLog now msg src st
  | .fileChunk now content cat => processNewContent now content cat st

def runPushes (ops : List PushOp) : LRState :=
  ops.foldl applyPush lrInit

/-- The full push history of a sequence of pushes. -/
def pushHistory (ops : List PushOp) : List LogEntry :=
  ops.flatMap pushLines

/-- The entries the direct-push classifier produces for a raw chunk. -/
def directLines (now : Int) (source : DirectSource) (message : String) : List LogEntry :=
  (nonBlankLines message).map (directEntry now source)

end LogRing

/-!
## Theorems

`LogRing` first: ring-buffer arithmetic, then the log claims; the
supervisor claims follow.
-/

namespace LogRing

theorem rtake_eq_self {α : Type} {l : List α} {n : Nat} (h : l.length ≤ n) :
    l.rtake n = l := by
  simp [List.rtake, Nat.sub_eq_zero_of_le h]

theorem rtake_length_le {α : Type} (l : List α) (n : Nat) : (l.rtake n).length ≤ n := by
  simp only [List.rtake, List.length_drop]
  omega

theorem take_absorb {α : Type} (n : Nat) (x y : List α) :
    (x ++ y.take n).take n = (x ++ y).take n := by
  rw [List.take_append_eq_append_take, List.take_append_eq_append_take, List.take_take]
  have hm : min (n - x.length) n = n - x.length := by omega
  rw [hm]

theorem rtake_append_absorb {α : Type} (n : Nat) (a b : List α) :
    (a.rtake n ++ b).rtake n = (a ++ b).rtake n := by
  rw [List.rtake_eq_reverse_take_reverse a n, List.rtake_eq_reverse_take_reverse,
    List.rtake_eq_reverse_take_reverse]
  rw [List.reverse_append, List.reverse_reverse, List.reverse_append]
  rw [take_absorb]

theorem trimLogs_eq_rtake (l : List LogEntry) : trimLogs l = l.rtake maxLogs := by
  unfold trimLogs
  split
  · rfl
  · exact (rtake_eq_self (by omega)).symm

theorem foldl_pushEntry (f : String → LogEntry) (lines : List String) (st : LRState) :
    lines.foldl (fun acc line => pushEntry (f line) acc) st =
      { logs := st.logs ++ lines.map f, emitted := st.emitted ++ lines.map f } := by
  induction lines generalizing st with
  | nil => simp
  | cons l ls ih =>
    rw [List.foldl_cons, ih]
    simp [pushEntry]

theorem addDirectLog_eq (now : Int) (msg : String) (src : DirectSource) (st : LRState) :
    addDirectLog now msg src st =
      { logs := trimLogs (st.logs ++ directLines now src msg)
        emitted := st.emitted ++ directLines now src msg } := by
  simp [addDirectLog, directLines, foldl_pushEntry]

theorem processNewContent_eq (now : Int) (content : String) (cat : Category) (st : LRState) :
    processNewContent now content cat st =
      { logs := trimLogs (st.logs ++ (nonBlankLines content).map (fun l => parseLine now l cat))
        emitted := st.emitted ++ (nonBlankLines content).map (fun l => parseLine now l cat) } := by
  simp [processNewContent, foldl_pushEntry]

theorem applyPush_logs (st : LRState) (op : PushOp) :
    (applyPush st op).logs = (st.logs ++ pushLines op).rtake maxLogs := by
  cases op with
  | direct now msg src =>
    rw [applyPush, addDirectLog_eq]
    simp [pushLines, directLines, trimLogs_eq_rtake]
  | fileChunk now content cat =>
    rw [applyPush, processNewContent_eq]
    simp [pushLines, trimLogs_eq_rtake]

theorem foldl_applyPush_logs (ops : List PushOp) (st : LRState) (h : st.logs.length ≤ maxLogs) :
    (ops.foldl applyPush st).logs = (st.logs ++ pushHistory ops).rtake maxLogs := by
  induction ops generalizing st with
  | nil =>
    simp only [List.foldl_nil, pushHistory, List.flatMap_nil, List.append_nil]
    exact (rtake_eq_self h).symm
  | cons op ops ih =>
    rw [List.foldl_cons]
    rw [ih (applyPush st op) (by rw [applyPush_logs]; exact rtake_length_le _ _)]
    rw [applyPush_logs, rtake_append_absorb]
    simp [pushHistory, List.flatMap_cons, List.append_assoc]

/-- C8: after every sequence of push operations (direct stream pushes
and tailer reads) the ring holds at most 5000 entries, and the retained
entries are exactly the most recent ones of the full push history, in
push order. -/
theorem C8_ring_bound : ∀ ops : List PushOp,
    (runPushes ops).logs = (pushHistory ops).rtake maxLogs ∧
    (runPushes ops).logs.length ≤ maxLogs := by
  intro ops
  have h := foldl_applyPush_logs ops lrInit (by simp [lrInit])
  constructor
  · simpa [runPushes, lrInit] using h
  · have h2 : (runPushes ops).logs = (pushHistory ops).rtake maxLogs := by
      simpa [runPushes, lrInit] using h
    rw [h2]
    exact rtake_length_le _ _

/-- C7 counterexample: the raw stdout line `[network] uncaught exception`
is classified by `addDirectLog` with level `info` and category `console`,
whereas the claimed section 4.2 rules (as implemented by `parseLine`)
give level `error` (contains `uncaught`) and category `network`. -/
theorem C7_counterexample :
    (addDirectLog 10 "[network] uncaught exception" .stdout lrInit).logs =
      [{ timestamp := 10, level := .info, category := .console,
         message := "[network] uncaught exception", source := .stdout }] ∧
    (parseLine 10 "[network] uncaught exception" .console).level = .error ∧
    (parseLine 10 "[network] uncaught exception" .console).category = .network ∧
    LogLevel.info ≠ LogLevel.error ∧ Category.console ≠ Category.network := by
  decide

/-- C7 (corrected): a direct push splits the chunk on newline, drops the
blank lines, and appends plus emits one entry per remaining line; but the
entries are classified by the direct rules, not the section 4.2 rules:
the category is always `console` (no per-line category override), a
stderr line is always `error`, and a stdout line gets
error/warning/debug only from the substrings `error`/`warn`/`debug`. -/
theorem C7_direct_push : ∀ (now : Int) (msg : String) (src : DirectSource) (st : LRState),
    (addDirectLog now msg src st).logs = trimLogs (st.logs ++ directLines now src msg) ∧
    (addDirectLog now msg src st).emitted = st.emitted ++ directLines now src msg ∧
    directLines now src msg = (nonBlankLines msg).map (directEntry now src) ∧
    ∀ e ∈ directLines now src msg, e.category = .console ∧ e.source = src.toLogSource ∧
      (src = .stderr → e.level = .error) := by
  intro now msg src st
  refine ⟨by rw [addDirectLog_eq], by rw [addDirectLog_eq], rfl, ?_⟩
  intro e he
  simp only [directLines, List.mem_map] at he
  obtain ⟨line, hline, rfl⟩ := he
  cases src with
  | stdout =>
    refine ⟨?_, ?_, by intro h; cases h⟩ <;>
      · simp only [directEntry]
        split_ifs <;> rfl
  | stderr =>
    refine ⟨?_, ?_, fun _ => ?_⟩ <;> rfl

/-- C7 witness: the corrected statement evaluated on a concrete stderr
push. -/
theorem C7_direct_push_witness :
    (directEntry 3 DirectSource.stderr "hello").category = Category.console ∧
    (directEntry 3 DirectSource.stderr "hello").level = LogLevel.error :=
  ⟨((C7_direct_push 3 "hello" .stderr lrInit).2.2.2 (directEntry 3 .stderr "hello") (by decide)).1,
   ((C7_direct_push 3 "hello" .stderr lrInit).2.2.2 (directEntry 3 .stderr "hello") (by decide)).2.2 rfl⟩

/-- C9: `getLogs` truncates only for a truthy (nonzero, present) limit:
limit 0 and an omitted limit both return every entry matching the
category filter, in push order. -/
theorem C9_zero_limit : ∀ (st : LRState) (cat : Option String),
    getLogs (some 0) cat st = getLogs none cat st ∧
    getLogs none none st = st.logs ∧
    (∀ c, c ≠ "" → getLogs (some 0) (some c) st
      = st.logs.filter (fun l => categoryName l.category = c)) ∧
    (st.logs ≠ [] → getLogs (some 0) none st ≠ []) := by
  intro st cat
  refine ⟨by simp [getLogs], by simp [getLogs], ?_, ?_⟩
  · intro c hc
    simp [getLogs, hc]
  · intro h
    simpa [getLogs] using h

/-- C9 witness: limit 0 on a three-line ring returns all three entries. -/
theorem C9_zero_limit_witness :
    getLogs (some 0) (some "console") (addDirectLog 1 "a\nb\nc" .stdout lrInit)
      = (addDirectLog 1 "a\nb\nc" .stdout lrInit).logs.filter
          (fun l => categoryName l.category = "console") :=
  (C9_zero_limit (addDirectLog 1 "a\nb\nc" .stdout lrInit) none).2.2.1 "console" (by decide)

end LogRing

namespace Watchdog

/- ### The inductive invariant and its preservation. -/

/-- State properties maintained by every event-loop turn: the backoff
field stays on the ladder, a running status has a positive start time
and both probe timers armed, the four statuses other than `running` and
`stopped` have both timers off, and recorded crash times are positive
and no later than the last observed instant. -/
def Inv (s : MState) : Prop :=
  s.backoffMs ∈ backoffLadder ∧
  (s.status = .running → 0 < s.startTime ∧ s.healthCheckTimer = true ∧ s.resourceTimer = true) ∧
  ((s.status = .idle ∨ s.status = .crashed ∨ s.status = .restarting ∨ s.status = .max_restarts) →
    s.healthCheckTimer = false ∧ s.resourceTimer = false) ∧
  (∀ t ∈ s.recentCrashTimestamps, 0 < t ∧ t ≤ s.clock) ∧
  0 ≤ s.clock

theorem inv_init : Inv initState := by
  unfold Inv initState
  refine ⟨by decide, by simp, by simp, by simp, by simp⟩

theorem ladder_step {b : Nat} (hb : b ∈ backoffLadder) : min (b * 2) 30000 ∈ backoffLadder := by
  simp only [backoffLadder, List.mem_cons, List.not_mem_nil, or_false] at hb ⊢
  rcases hb with h | h | h | h | h | h <;> subst h <;> decide

theorem start_proj {s : MState} {now : Int} {m : Option LaunchMode} {p : Option Nat}
    (hs : s.status ≠ .running) :
    (start now m p s).backoffMs = s.backoffMs ∧
    (start now m p s).recentCrashTimestamps = s.recentCrashTimestamps ∧
    (start now m p s).clock = now ∧
    (start now m p s).startTime = now ∧
    (start now m p s).healthCheckTimer = true ∧
    (start now m p s).resourceTimer = true ∧
    (start now m p s).crashLog = s.crashLog ∧
    ((start now m p s).status = .running ∨ (start now m p s).status = .stopped) := by
  unfold start
  rw [if_neg hs]
  cases m <;>
    simp only [startDevMode, startProductionMode, spawnChild, setStatus, emit, getStatus,
      startHealthCheck, startResourceMonitor] <;>
    split <;> split <;> simp

theorem exit_proj (s : MState) (now : Int) (code : Option Int) (signal : Option String) :
    (onProcessExit now code signal s).clock = now ∧
    (onProcessExit now code signal s).healthCheckTimer = false ∧
    (onProcessExit now code signal s).resourceTimer = false ∧
    (onProcessExit now code signal s).startTime = s.startTime ∧
    (((onProcessExit now code signal s).status = .stopped ∧
        (onProcessExit now code signal s).backoffMs = s.backoffMs ∧
        (onProcessExit now code signal s).recentCrashTimestamps = s.recentCrashTimestamps) ∨
      ((onProcessExit now code signal s).recentCrashTimestamps =
          (s.recentCrashTimestamps ++ [now]).filter
            (fun t => now - (s.config.restartWindowMs : Int) < t) ∧
        ((onProcessExit now code signal s).status = .crashed ∧
            (onProcessExit now code signal s).backoffMs = s.backoffMs ∨
          (onProcessExit now code signal s).status = .max_restarts ∧
            (onProcessExit now code signal s).backoffMs = s.backoffMs ∨
          (onProcessExit now code signal s).status = .restarting ∧
            ((onProcessExit now code signal s).backoffMs = min (s.backoffMs * 2) 30000 ∨
              (onProcessExit now code signal s).backoffMs = min (1000 * 2) 30000)))) := by
  unfold onProcessExit
  dsimp only [stopHealthCheck, stopResourceMonitor, setStatus, emit, getStatus]
  split
  · simp
  · split
    · simp
    · split
      · simp
      · split <;> split <;> simp

theorem exit_stopped_proj {s : MState} {now : Int} {code : Option Int} {signal : Option String}
    (h : s.status = .stopped) :
    (onProcessExit now code signal s).status = .stopped ∧
    (onProcessExit now code signal s).backoffMs = s.backoffMs ∧
    (onProcessExit now code signal s).recentCrashTimestamps = s.recentCrashTimestamps ∧
    (onProcessExit now code signal s).clock = now ∧
    (onProcessExit now code signal s).healthCheckTimer = false ∧
    (onProcessExit now code signal s).resourceTimer = false ∧
    (onProcessExit now code signal s).startTime = s.startTime ∧
    (onProcessExit now code signal s).crashLog = s.crashLog := by
  unfold onProcessExit
  dsimp only [stopHealthCheck, stopResourceMonitor, setStatus, emit, getStatus]
  rw [if_pos (Or.inr h)]
  exact ⟨rfl, rfl, rfl, rfl, rfl, rfl, rfl, rfl⟩

theorem stop_proj (s : MState) (now : Int) :
    (stop now s).status = .stopped ∧
    (stop now s).backoffMs = s.backoffMs ∧
    (stop now s).recentCrashTimestamps = s.recentCrashTimestamps ∧
    (stop now s).clock = now ∧
    (stop now s).healthCheckTimer = false ∧
    (stop now s).resourceTimer = false ∧
    (stop now s).startTime = s.startTime ∧
    (stop now s).crashLog = s.crashLog := by
  unfold stop
  dsimp only [stopHealthCheck, stopResourceMonitor, setStatus, emit, getStatus]
  split
  · split
    · exact exit_stopped_proj rfl
    · exact ⟨rfl, rfl, rfl, rfl, rfl, rfl, rfl, rfl⟩
  · exact ⟨rfl, rfl, rfl, rfl, rfl, rfl, rfl, rfl⟩

theorem inv_start {s : MState} {now : Int} {m : Option LaunchMode} {p : Option Nat}
    (h : Inv s) (hnow : 0 < now) (hc : s.clock ≤ now) : Inv (start now m p s) := by
  obtain ⟨hb, hrun, hoff, hts, hcl⟩ := h
  by_cases hs : s.status = .running
  · simpa [start, hs] using ⟨hb, hrun, hoff, hts, hcl⟩
  · obtain ⟨p1, p2, p3, p4, p5, p6, p7, p8⟩ := @start_proj s now m p hs
    refine ⟨by rw [p1]; exact hb, ?_, ?_, ?_, ?_⟩
    · intro _
      exact ⟨by rw [p4]; exact hnow, p5, p6⟩
    · intro hx
      rcases p8 with h8 | h8 <;> rcases hx with hx | hx | hx | hx <;>
        rw [h8] at hx <;> cases hx
    · intro t ht
      rw [p2] at ht
      have := hts t ht
      rw [p3]
      omega
    · rw [p3]; omega

theorem inv_stop {s : MState} {now : Int}
    (h : Inv s) (hnow : 0 < now) (hc : s.clock ≤ now) : Inv (stop now s) := by
  obtain ⟨hb, hrun, hoff, hts, hcl⟩ := h
  obtain ⟨p1, p2, p3, p4, p5, p6, p7, p8⟩ := stop_proj s now
  refine ⟨by rw [p2]; exact hb, ?_, ?_, ?_, ?_⟩
  · intro hx
    rw [p1] at hx
    cases hx
  · intro _
    exact ⟨p5, p6⟩
  · intro t ht
    rw [p3] at ht
    have := hts t ht
    rw [p4]
    omega
  · rw [p4]; omega

theorem inv_exit {s : MState} {now : Int} {code : Option Int} {signal : Option String}
    (h : Inv s) (hnow : 0 < now) (hc : s.clock ≤ now) : Inv (onProcessExit now code signal s) := by
  obtain ⟨hb, hrun, hoff, hts, hcl⟩ := h
  obtain ⟨p1, p2, p3, p4, p5⟩ := exit_proj s now code signal
  have hrec : ∀ t ∈ (onProcessExit now code signal s).recentCrashTimestamps, 0 < t ∧ t ≤ now := by
    rcases p5 with ⟨_, _, hr⟩ | ⟨hr, _⟩
    · intro t ht
      rw [hr] at ht
      have := hts t ht
      omega
    · intro t ht
      rw [hr] at ht
      rcases List.mem_filter.mp ht with ⟨hmem, _⟩
      rcases List.mem_append.mp hmem with hmem | hmem
      · have := hts t hmem
        omega
      · rcases List.mem_singleton.mp hmem with rfl
        omega
  have hbk : (onProcessExit now code signal s).backoffMs ∈ backoffLadder := by
    rcases p5 with ⟨_, hbk, _⟩ | ⟨_, ⟨_, hbk⟩ | ⟨_, hbk⟩ | ⟨_, hbk | hbk⟩⟩ <;> rw [hbk]
    · exact hb
    · exact hb
    · exact hb
    · exact ladder_step hb
    · decide
  have hst : (onProcessExit now code signal s).status ≠ .running := by
    rcases p5 with ⟨hs, _⟩ | ⟨_, ⟨hs, _⟩ | ⟨hs, _⟩ | ⟨hs, _⟩⟩ <;> rw [hs] <;>
      intro hcon <;> cases hcon
  refine ⟨hbk, fun hx => absurd hx hst, fun _ => ⟨p2, p3⟩, ?_, ?_⟩
  · intro t ht
    have := hrec t ht
    rw [p1]
    omega
  · rw [p1]; omega

theorem inv_record_mod {s : MState} {now : Int} (h : Inv (stop now s)) :
    Inv { stop now s with backoffMs := 1000, recentCrashTimestamps := [] } := by
  obtain ⟨hb, hrun, hoff, hts, hcl⟩ := h
  refine ⟨by show (1000 : Nat) ∈ backoffLadder; decide, ?_, ?_, ?_, ?_⟩
  · intro hx
    obtain ⟨a, b, c⟩ := hrun hx
    exact ⟨a, b, c⟩
  · intro hx
    exact hoff hx
  · intro t ht
    exact absurd ht (List.not_mem_nil t)
  · exact hcl

theorem inv_restart {s : MState} {now : Int} {p : Option Nat}
    (h : Inv s) (hnow : 0 < now) (hc : s.clock ≤ now) : Inv (restart now p s) := by
  unfold restart
  have h1 := inv_stop h hnow hc
  have h2 := inv_record_mod h1
  have hc2 : ({ stop now s with backoffMs := 1000, recentCrashTimestamps := ([] : List Int) }).clock ≤ now := by
    have := (stop_proj s now).2.2.2.1
    simpa using le_of_eq this
  exact inv_start h2 hnow hc2

theorem inv_fire {s : MState} {now : Int} {p : Option Nat}
    (h : Inv s) (hnow : 0 < now) (hc : s.clock ≤ now) : Inv (backoffFire now p s) := by
  unfold backoffFire
  obtain ⟨hb, hrun, hoff, hts, hcl⟩ := h
  exact inv_start ⟨hb, hrun, hoff, hts, hcl⟩ hnow hc

theorem inv_emit {s : MState} {e : Event} (h : Inv s) : Inv (emit e s) := h

theorem inv_build {s : MState} {now nowDone : Int} {bc : Option Int} {p : Option Nat}
    (h : Inv s) (hnow : 0 < now) (hc : s.clock ≤ now) (hd : now ≤ nowDone) :
    Inv (buildAndRun now nowDone bc p s) := by
  unfold buildAndRun
  split
  · exact inv_emit h
  · have h1 := inv_stop h hnow hc
    have hcs : (stop now s).clock = now := (stop_proj s now).2.2.2.1
    split
    · refine inv_start (inv_emit (inv_emit h1)) (by omega) ?_
      show (stop now s).clock ≤ nowDone
      omega
    · exact inv_emit (inv_emit h1)

theorem inv_health {s : MState} {now : Int} {ok : Bool}
    (h : Inv s) (hnow : 0 < now) (hc : s.clock ≤ now) : Inv (healthTick now ok s) := by
  obtain ⟨hb, hrun, hoff, hts, hcl⟩ := h
  refine ⟨hb, hrun, hoff, ?_, ?_⟩
  · intro t ht
    have h2 := hts t ht
    refine ⟨h2.1, ?_⟩
    show t ≤ now
    omega
  · show (0 : Int) ≤ now
    omega

theorem inv_resource {s : MState} {mem : Option Nat} (h : Inv s) : Inv (resourceTick mem s) := by
  unfold resourceTick
  split
  · exact h
  · exact h

theorem inv_stderr {s : MState} {text : String} (h : Inv s) : Inv (onStderrData text s) := h

theorem inv_clear {s : MState} (h : Inv s) : Inv (clearCrashLog s) := by
  obtain ⟨hb, hrun, hoff, hts, hcl⟩ := h
  exact ⟨hb, hrun, hoff, by intro t ht; simp [clearCrashLog] at ht, hcl⟩

theorem inv_updateConfig {s : MState} {p : ConfigPatch} (h : Inv s) : Inv (updateConfig p s) := h

/-- Every reachable supervisor state satisfies the inductive invariant. -/
theorem reachable_inv : ∀ s, Reachable s → Inv s := by
  intro s h
  induction h with
  | init => exact inv_init
  | step hr hstep ih =>
    cases hstep with
    | startStep now m p h1 h2 => exact inv_start ih h1 h2
    | stopStep now h1 h2 => exact inv_stop ih h1 h2
    | restartStep now p h1 h2 => exact inv_restart ih h1 h2
    | exitStep now code signal h1 h2 h3 => exact inv_exit ih h1 h2
    | fireStep now p h1 h2 h3 => exact inv_fire ih h1 h2
    | buildStep now nowDone bc p h1 h2 h3 => exact inv_build ih h1 h2 h3
    | healthStep now ok h1 h2 h3 => exact inv_health ih h1 h2
    | resourceStep mem h3 => exact inv_resource ih
    | errorStep msg => exact inv_emit ih
    | stdoutStep text h3 => exact inv_emit ih
    | stderrStep text h3 => exact inv_stderr ih
    | updateConfigStep p => exact inv_updateConfig ih
    | clearCrashLogStep => exact inv_clear ih

end Watchdog

namespace Watchdog

/- ### Reachability of the concrete executions. -/

theorem reach_c2run : Reachable c2run :=
  Reachable.step
    (Reachable.step Reachable.init (Step.updateConfigStep initState devPatch))
    (Step.startStep (updateConfig devPatch initState) 100 none (some 7) (by decide) (by decide))

theorem reach_c2stopped : Reachable c2stopped :=
  Reachable.step reach_c2run (Step.stopStep c2run 200 (by decide) (by decide))

theorem reach_c3crashed : Reachable c3crashed :=
  Reachable.step reach_c2run
    (Step.exitStep c2run 600 (some 1) none (by decide) (by decide) (by decide))

theorem reach_c1final : Reachable c1final := by
  have h1 : Reachable c1s1 :=
    Reachable.step Reachable.init (Step.updateConfigStep initState devPatch)
  have h2 : Reachable c1s2 :=
    Reachable.step h1 (Step.startStep c1s1 1000 none (some 100) (by decide) (by decide))
  have h3 : Reachable c1s3 :=
    Reachable.step h2 (Step.exitStep c1s2 1500 (some 1) none (by decide) (by decide) (by decide))
  have h4 : Reachable c1s4 :=
    Reachable.step h3 (Step.fireStep c1s3 2500 (some 101) (by decide) (by decide) (by decide))
  have h5 : Reachable c1s5 :=
    Reachable.step h4 (Step.exitStep c1s4 3000 (some 1) none (by decide) (by decide) (by decide))
  have h6 : Reachable c1s6 :=
    Reachable.step h5 (Step.fireStep c1s5 5000 (some 102) (by decide) (by decide) (by decide))
  have h7 : Reachable c1s7 :=
    Reachable.step h6 (Step.exitStep c1s6 5500 (some 1) none (by decide) (by decide) (by decide))
  have h8 : Reachable c1s8 :=
    Reachable.step h7 (Step.fireStep c1s7 9500 (some 103) (by decide) (by decide) (by decide))
  have h9 : Reachable c1s9 :=
    Reachable.step h8 (Step.exitStep c1s8 10000 (some 1) none (by decide) (by decide) (by decide))
  have h10 : Reachable c1s10 :=
    Reachable.step h9 (Step.fireStep c1s9 18000 (some 104) (by decide) (by decide) (by decide))
  exact Reachable.step h10
    (Step.exitStep c1s10 18500 (some 1) none (by decide) (by decide) (by decide))

/- ### Branch-level characterizations of the exit handler and start. -/

/-- On a crash exit (nonzero/null code, not already stopped), the stored
window is exactly the old timestamps plus `now`, pruned to the instants
strictly inside the rolling window ending at `now`. -/
theorem exit_crash_recent {s : MState} {now : Int} {code : Option Int} {signal : Option String}
    (hcode : code ≠ some 0) (hstat : s.status ≠ .stopped) :
    (onProcessExit now code signal s).recentCrashTimestamps =
      (s.recentCrashTimestamps ++ [now]).filter
        (fun t => now - (s.config.restartWindowMs : Int) < t) := by
  unfold onProcessExit
  dsimp only [stopHealthCheck, stopResourceMonitor, setStatus, emit, getStatus]
  rw [if_neg (by simp [hcode, hstat])]
  split
  · rfl
  · split
    · rfl
    · split <;> (first | rfl | (split <;> rfl))

/-- On a crash that schedules a restart, the armed delay is the backoff
after the stability reset, and the field is then doubled and capped. -/
theorem exit_crash_sched {s : MState} {now : Int} {code : Option Int} {signal : Option String}
    (hcode : code ≠ some 0) (hstat : s.status ≠ .stopped) (hauto : s.config.autoRestart = true)
    (hcount : ((s.recentCrashTimestamps ++ [now]).filter
        (fun t => now - (s.config.restartWindowMs : Int) < t)).length < s.config.maxRestarts) :
    (onProcessExit now code signal s).status = .restarting ∧
    (onProcessExit now code signal s).restartTimer =
      some (if 60000 < (if 0 < s.startTime then now - s.startTime else 0)
            then 1000 else s.backoffMs) ∧
    (onProcessExit now code signal s).backoffMs =
      min ((if 60000 < (if 0 < s.startTime then now - s.startTime else 0)
            then 1000 else s.backoffMs) * 2) 30000 := by
  unfold onProcessExit
  dsimp only [stopHealthCheck, stopResourceMonitor, setStatus, emit, getStatus]
  rw [if_neg (by simp [hcode, hstat])]
  rw [if_neg (by simp [hauto])]
  rw [if_neg (by exact not_le.mpr hcount)]
  by_cases hu : 60000 < (if 0 < s.startTime then now - s.startTime else 0)
  · simp only [if_pos hu]
    simp
  · simp only [if_neg hu]
    simp

/-- `restart()` always leaves the backoff field at its initial rung. -/
theorem restart_backoff (s : MState) (now : Int) (p : Option Nat) :
    (restart now p s).backoffMs = 1000 := by
  unfold restart
  have hst : ({ stop now s with backoffMs := 1000, recentCrashTimestamps := ([] : List Int) }).status = .stopped :=
    (stop_proj s now).1
  have hne : ({ stop now s with backoffMs := 1000, recentCrashTimestamps := ([] : List Int) }).status ≠ .running := by
    rw [hst]
    intro h
    cases h
  rw [(start_proj hne).1]

/-- C1 counterexample: in the five-fast-crashes run the delays actually
armed between the five spawns are 1000, 2000, 4000 and 8000 ms only; a
16000 ms backoff is never scheduled, because the fifth crash reaches the
rate limit before another restart is armed.  This refutes the claimed
delay set {1000, 2000, 4000, 8000, 16000}. -/
theorem C1_counterexample :
    Reachable c1final ∧
    scheduledDelays c1final = [1000, 2000, 4000, 8000] ∧
    16000 ∉ scheduledDelays c1final ∧
    c1final.events.countP isSpawnEvent = 5 :=
  ⟨reach_c1final, by decide, by decide, by decide⟩

/-- C1 (corrected): with `maxRestarts = 5`, `restartWindowMs = 300000`,
`autoRestart = true` and a target that exits with code 1 five hundred
milliseconds after every spawn, the supervisor performs 5 spawns with
backoff delays {1000, 2000, 4000, 8000} ms armed between them (the
16000 value is written into `backoffMs` after the fourth crash but never
scheduled), emits 5 crash events, transitions to `max_restarts` emitting
the `max_restarts` event, and `getCrashLog()` has length 5. -/
theorem C1_five_fast_crashes :
    c1final.config.maxRestarts = 5 ∧ c1final.config.restartWindowMs = 300000 ∧
    c1final.config.autoRestart = true ∧
    Reachable c1final ∧
    c1final.events.countP isSpawnEvent = 5 ∧
    scheduledDelays c1final = [1000, 2000, 4000, 8000] ∧
    c1final.events.countP isCrashEvent = 5 ∧
    c1final.status = .max_restarts ∧
    c1final.events.countP isMaxRestartsEvent = 1 ∧
    (getCrashLog c1final).length = 5 :=
  ⟨by decide, by decide, by decide, reach_c1final, by decide, by decide, by decide,
   by decide, by decide, by decide⟩

/-- C2 counterexample: after a start at time 100 and a stop at time 200
the supervisor is reachable in status `stopped`, yet `getStatus` at time
500 reports `uptimeMs = 400`, not 0 — `startTime` is never reset, so the
claimed `uptimeMs = 0` outside `running` is false. -/
theorem C2_counterexample :
    Reachable c2stopped ∧ c2stopped.status = .stopped ∧
    (getStatus 500 c2stopped).uptimeMs = 400 ∧ (400 : Int) ≠ 0 :=
  ⟨reach_c2stopped, by decide, by decide, by decide⟩

/-- C2 (corrected): in every reachable state, `uptimeMs` equals
`now - startTime` whenever the status is `running`; it equals 0 only
while no start has ever happened (`startTime = 0`), and in any state it
equals `now - startTime` as soon as `startTime` is positive — including
`stopped` and the other non-running statuses. -/
theorem C2_uptime : ∀ s, Reachable s → ∀ now : Int,
    (s.status = .running → (getStatus now s).uptimeMs = now - s.startTime) ∧
    (s.startTime = 0 → (getStatus now s).uptimeMs = 0) ∧
    (0 < s.startTime → (getStatus now s).uptimeMs = now - s.startTime) := by
  intro s h now
  obtain ⟨_, hrun, _, _, _⟩ := reachable_inv s h
  refine ⟨?_, ?_, ?_⟩
  · intro hx
    have h1 := (hrun hx).1
    simp [getStatus, h1]
  · intro hx
    simp [getStatus, hx]
  · intro hx
    simp [getStatus, hx]

/-- C2 witness: the corrected statement applied to the stopped run. -/
theorem C2_uptime_witness :
    (c2stopped.status = .running → (getStatus 500 c2stopped).uptimeMs = 500 - c2stopped.startTime) ∧
    (c2stopped.startTime = 0 → (getStatus 500 c2stopped).uptimeMs = 0) ∧
    (0 < c2stopped.startTime → (getStatus 500 c2stopped).uptimeMs = 500 - c2stopped.startTime) :=
  C2_uptime c2stopped reach_c2stopped 500

/-- C3 counterexample: one crash at time 600 with a 300000 ms window;
querying `getStatus` at time 400000 still reports `recentCrashes = 1`
although no recorded timestamp lies inside the window — timestamps are
not discarded on query, only on crash. -/
theorem C3_counterexample :
    Reachable c3crashed ∧
    (getStatus 400000 c3crashed).recentCrashes = 1 ∧
    recentWithinWindow 400000 c3crashed = 0 ∧ (1 : Nat) ≠ 0 :=
  ⟨reach_c3crashed, by decide, by decide, by decide⟩

/-- C3 (corrected): pruning happens on each crash only: after a crash at
time `now`, every stored timestamp lies inside the window ending at
`now`, and `getStatus` reports the length of the stored list as
`recentCrashes` without re-pruning at query time. -/
theorem C3_window_prune : ∀ (s : MState) (now : Int) (code : Option Int) (signal : Option String),
    Reachable s → s.clock ≤ now → code ≠ some 0 → s.status ≠ .stopped →
    ((onProcessExit now code signal s).recentCrashTimestamps =
      (s.recentCrashTimestamps ++ [now]).filter
        (fun t => now - (s.config.restartWindowMs : Int) < t)) ∧
    (∀ t ∈ (onProcessExit now code signal s).recentCrashTimestamps,
      now - (s.config.restartWindowMs : Int) < t ∧ t ≤ now) ∧
    (getStatus now (onProcessExit now code signal s)).recentCrashes =
      (onProcessExit now code signal s).recentCrashTimestamps.length := by
  intro s now code signal hreach hclock hcode hstat
  obtain ⟨_, _, _, hts, _⟩ := reachable_inv s hreach
  have hrec := @exit_crash_recent s now code signal hcode hstat
  refine ⟨hrec, ?_, rfl⟩
  intro t ht
  rw [hrec] at ht
  rcases List.mem_filter.mp ht with ⟨hmem, hcond⟩
  refine ⟨by simpa using hcond, ?_⟩
  rcases List.mem_append.mp hmem with hmem | hmem
  · have := hts t hmem
    omega
  · rcases List.mem_singleton.mp hmem with rfl
    omega

/-- C3 witness: the corrected statement on the crash at time 600. -/
theorem C3_window_prune_witness :
    ((onProcessExit 600 (some 1) none c2run).recentCrashTimestamps =
      (c2run.recentCrashTimestamps ++ [600]).filter
        (fun t => 600 - (c2run.config.restartWindowMs : Int) < t)) ∧
    (∀ t ∈ (onProcessExit 600 (some 1) none c2run).recentCrashTimestamps,
      600 - (c2run.config.restartWindowMs : Int) < t ∧ t ≤ 600) ∧
    (getStatus 600 (onProcessExit 600 (some 1) none c2run)).recentCrashes =
      (onProcessExit 600 (some 1) none c2run).recentCrashTimestamps.length :=
  C3_window_prune c2run 600 (some 1) none reach_c2run (by decide) (by decide) (by decide)

/-- C6: `backoffMs` is always on the ladder {1000, 2000, 4000, 8000,
16000, 30000}; a crash that schedules a restart arms the delay obtained
after the stability reset (1000 if the preceding uptime exceeded 60 s,
the current field otherwise) and then doubles the field capped at 30000;
and manual `restart()` resets the field to 1000. -/
theorem C6_backoff_discipline :
    (∀ s, Reachable s → s.backoffMs ∈ backoffLadder) ∧
    (∀ (s : MState) (now : Int) (code : Option Int) (signal : Option String),
      code ≠ some 0 → s.status ≠ .stopped → s.config.autoRestart = true →
      ((s.recentCrashTimestamps ++ [now]).filter
          (fun t => now - (s.config.restartWindowMs : Int) < t)).length < s.config.maxRestarts →
      (onProcessExit now code signal s).status = .restarting ∧
      (onProcessExit now code signal s).restartTimer =
        some (if 60000 < (if 0 < s.startTime then now - s.startTime else 0)
              then 1000 else s.backoffMs) ∧
      (onProcessExit now code signal s).backoffMs =
        min ((if 60000 < (if 0 < s.startTime then now - s.startTime else 0)
              then 1000 else s.backoffMs) * 2) 30000) ∧
    (∀ (s : MState) (now : Int) (p : Option Nat), (restart now p s).backoffMs = 1000) := by
  refine ⟨?_, ?_, ?_⟩
  · intro s h
    exact (reachable_inv s h).1
  · intro s now code signal hcode hstat hauto hcount
    exact exit_crash_sched hcode hstat hauto hcount
  · intro s now p
    exact restart_backoff s now p

/-- C6 witness: the discipline evaluated on the concrete run. -/
theorem C6_backoff_discipline_witness :
    initState.backoffMs ∈ backoffLadder ∧
    ((onProcessExit 600 (some 1) none c2run).status = .restarting ∧
      (onProcessExit 600 (some 1) none c2run).restartTimer =
        some (if 60000 < (if 0 < c2run.startTime then (600 : Int) - c2run.startTime else 0)
              then 1000 else c2run.backoffMs) ∧
      (onProcessExit 600 (some 1) none c2run).backoffMs =
        min ((if 60000 < (if 0 < c2run.startTime then (600 : Int) - c2run.startTime else 0)
              then 1000 else c2run.backoffMs) * 2) 30000) ∧
    (restart 700 (some 3) c2run).backoffMs = 1000 :=
  ⟨C6_backoff_discipline.1 initState Reachable.init,
   C6_backoff_discipline.2.1 c2run 600 (some 1) none (by decide) (by decide) (by decide) (by decide),
   C6_backoff_discipline.2.2 c2run 700 (some 3)⟩

/-- C10: when the status is already `running`, `start(mode)` returns
immediately and the whole state — configuration included — is unchanged,
even when the requested mode differs. -/
theorem C10_start_noop : ∀ (s : MState) (now : Int) (modeArg : Option LaunchMode) (newPid : Option Nat),
    s.status = .running → start now modeArg newPid s = s := by
  intro s now modeArg newPid h
  simp [start, h]

/-- C10 witness: a running state is untouched by a production-mode
start. -/
theorem C10_start_noop_witness :
    start 5 (some LaunchMode.production) (some 9) { initState with status := .running }
      = { initState with status := .running } :=
  C10_start_noop { initState with status := .running } 5 (some .production) (some 9) rfl

end Watchdog
